import Mathlib

/-!
Shallow embedding of the voice pipeline in backend/services/voice_service.py.

Python strings are modelled as Lean `String` values; list-of-char helpers
mirror the CPython behaviour of `str.strip`, `str.lower`, `str.split`,
substring containment (`in`) and `re.sub` on the inputs exercised here
(ASCII case mapping; the Unicode characters appearing in the repository's
string constants are never case-mapped by the code paths we model).
Machine floats in the source are modelled as rationals where the claims at
issue do not depend on rounding (they do not), and `int()` as truncation
toward zero.
-/

/-- ASCII whitespace recognized by Python `str.strip`, `str.split` and the
regex class for whitespace. -/
def isSpace (c : Char) : Bool :=
  c == ' ' || c == '\t' || c == '\n' || c == '\r' || c == '\x0b' || c == '\x0c'

/-- Python `str.strip` on a character list: drop whitespace from both ends. -/
def stripChars (l : List Char) : List Char :=
  ((l.dropWhile isSpace).reverse.dropWhile isSpace).reverse

/-- Python `str.strip`. -/
def pyStrip (s : String) : String := String.mk (stripChars s.data)

/-- Python slicing `s[:n]` on a string. -/
def strTake (s : String) (n : Nat) : String := String.mk (s.data.take n)

/-- Python substring containment (the `in` operator) on character lists:
`listContainsSub pat l` holds when `pat` occurs contiguously in `l`. -/
def listContainsSub (pat : List Char) : List Char → Bool
  | [] => pat.isEmpty
  | c :: rest => pat.isPrefixOf (c :: rest) || listContainsSub pat rest

/-- Python substring containment `pat in s`. -/
def strContainsSub (s pat : String) : Bool := listContainsSub pat.data s.data

/-- Python `s.startswith(p)`. -/
def strStartsWith (s p : String) : Bool := p.data.isPrefixOf s.data

/-! ## AudioSegment model (pydub) and `_convert_audio_format`

A pydub `AudioSegment` is modelled by its frame rate, channel count, sample
width in bytes and duration in milliseconds (pydub's `len`).  The claims about
the conversion stage only concern these attributes. -/

/-- Model of a pydub AudioSegment: frame rate in Hz, channel count, sample
width in bytes, and duration in milliseconds. -/
structure AudioSeg where
  frameRate : Nat
  channels : Nat
  sampleWidth : Nat
  durationMs : Nat
deriving DecidableEq

/-- pydub `set_frame_rate` (duration in milliseconds is preserved). -/
def set_frame_rate (s : AudioSeg) (r : Nat) : AudioSeg := { s with frameRate := r }

/-- pydub `set_channels`. -/
def set_channels (s : AudioSeg) (c : Nat) : AudioSeg := { s with channels := c }

/-- pydub `set_sample_width`. -/
def set_sample_width (s : AudioSeg) (w : Nat) : AudioSeg := { s with sampleWidth := w }

/-- pydub `AudioSegment.silent(duration=ms)`: 11025 Hz, mono, 16-bit. -/
def silentSeg (ms : Nat) : AudioSeg := ⟨11025, 1, 2, ms⟩

/-- pydub `+` on segments: both operands are synced to the larger frame rate,
channel count and sample width, and the data are concatenated. -/
def appendSeg (a b : AudioSeg) : AudioSeg :=
  ⟨max a.frameRate b.frameRate, max a.channels b.channels,
   max a.sampleWidth b.sampleWidth, a.durationMs + b.durationMs⟩

/-- The tail of `convert_sync` in `_convert_audio_format` (after the decode and
the optional preprocessing): force 16 kHz mono 16-bit, pad with trailing
silence to 500 ms when the segment is shorter than 300 ms, and raise when the
segment ends up empty. -/
def finalizeForSTT (seg : AudioSeg) : Except String AudioSeg :=
  let s1 := set_sample_width (set_channels (set_frame_rate seg 16000) 1) 2
  let s2 :=
    if s1.durationMs < 300 then appendSeg s1 (silentSeg (500 - s1.durationMs))
    else s1
  if s2.durationMs = 0 then Except.error "Audio segment is empty after processing"
  else Except.ok s2

/-- C1 counterexample: a decoded segment whose processed duration is 400 ms is
handed to recognition unpadded, so the output duration is below the claimed
500 ms minimum even though conversion succeeds. -/
theorem finalize_pad_gap_cex :
    finalizeForSTT ⟨44100, 2, 2, 400⟩ = Except.ok ⟨16000, 1, 2, 400⟩
    ∧ (400 : Nat) < 500 := by
  constructor
  · rfl
  · decide

/-- C1 (amended): conversion always succeeds with a 16 kHz, mono, 16-bit
segment; a segment shorter than 300 ms is padded with trailing silence to
exactly 500 ms rather than rejected, while a segment of 300 ms or more keeps
its duration (so durations in [300 ms, 500 ms) are not padded). -/
theorem finalize_format_spec (seg : AudioSeg) :
    finalizeForSTT seg =
      Except.ok ⟨16000, 1, 2, if seg.durationMs < 300 then 500 else seg.durationMs⟩ := by
  unfold finalizeForSTT set_sample_width set_channels set_frame_rate appendSeg silentSeg
  by_cases h : seg.durationMs < 300
  · have h500 : seg.durationMs + (500 - seg.durationMs) = 500 := by omega
    simp only [h, if_true]
    simp [h500]
  · have h0 : ¬ seg.durationMs = 0 := by omega
    simp [h, h0]

/-! ## Format fallback loop of `convert_sync` (decode stage)

`convert_sync` loads the request bytes with pydub, trying a fixed list of
container/codec interpretations: auto-detection first (`None`), then webm,
ogg, mp3, m4a, wav, flac.  The outcome of `AudioSegment.from_file` on the
request's bytes under each interpretation is abstracted as an oracle
`load : Option AFmt → Except String AudioSeg` (for fixed input bytes each
attempt is deterministic).  `transcribe_audio` and `convert_sync` receive no
client-declared format hint — the HTTP layer only logs `content_type`. -/

/-- The concrete container formats named in `formats_to_try` (`None`, meaning
ffmpeg auto-detection, is modelled as `Option.none`). -/
inductive AFmt where
  | webm | ogg | mp3 | m4a | wav | flac
deriving DecidableEq

/-- The `formats_to_try` list of `convert_sync`, in source order. -/
def formats_to_try : List (Option AFmt) :=
  [none, some AFmt.webm, some AFmt.ogg, some AFmt.mp3, some AFmt.m4a,
   some AFmt.wav, some AFmt.flac]

/-- The `fmt or 'auto'` label used when recording a load failure. -/
def fmtName : Option AFmt → String
  | none => "auto"
  | some AFmt.webm => "webm"
  | some AFmt.ogg => "ogg"
  | some AFmt.mp3 => "mp3"
  | some AFmt.m4a => "m4a"
  | some AFmt.wav => "wav"
  | some AFmt.flac => "flac"

/-- Whether a load attempt succeeded. -/
def isOkB : Except String AudioSeg → Bool
  | Except.ok _ => true
  | Except.error _ => false

/-- The interpretations actually attempted by the loop: every failing format
of the list in order, plus the first succeeding one, after which the loop
breaks. -/
def loadAttempts (load : Option AFmt → Except String AudioSeg) :
    List (Option AFmt) → List (Option AFmt)
  | [] => []
  | f :: rest =>
    match load f with
    | Except.ok _ => [f]
    | Except.error _ => f :: loadAttempts load rest

/-- The value of `audio_segment` (with its winning format) when the loop ends:
the first interpretation that loads successfully. -/
def firstLoad (load : Option AFmt → Except String AudioSeg) :
    List (Option AFmt) → Option (AudioSeg × Option AFmt)
  | [] => none
  | f :: rest =>
    match load f with
    | Except.ok seg => some (seg, f)
    | Except.error _ => firstLoad load rest

/-- The `load_errors` list when the loop ends: one `"fmt: reason"` entry per
failing attempt, truncating each reason to 100 characters, stopping at the
first success. -/
def loadErrors (load : Option AFmt → Except String AudioSeg) :
    List (Option AFmt) → List String
  | [] => []
  | f :: rest =>
    match load f with
    | Except.ok _ => []
    | Except.error e => (fmtName f ++ ": " ++ strTake e 100) :: loadErrors load rest

/-- The decode portion of `convert_sync`: run the fallback loop over
`formats_to_try`; if no interpretation succeeds, raise the fixed
unsupported-format message (the accumulated `load_errors` are only logged). -/
def convertLoadResult (load : Option AFmt → Except String AudioSeg) :
    Except String (AudioSeg × Option AFmt) :=
  match firstLoad load formats_to_try with
  | some r => Except.ok r
  | none =>
      Except.error "Unsupported audio format. Ensure ffmpeg is installed and audio is valid."

/-- Modelled from the spec: the claimed attempt order for a request whose
client declared the format `hint` — the hint first, then the ordered fallback
list of common formats. -/
def specAttemptOrder (hint : AFmt) : List (Option AFmt) :=
  some hint :: [some AFmt.webm, some AFmt.ogg, some AFmt.mp3, some AFmt.m4a,
   some AFmt.wav, some AFmt.flac]

/-- C4 counterexample: for a client that declared mp3, the claimed order would
try mp3 first, but the code's first interpretation is ffmpeg auto-detection —
the attempt order is the fixed `formats_to_try` regardless of any hint. -/
theorem convert_hint_not_first_cex :
    formats_to_try.head? = some none
    ∧ (specAttemptOrder AFmt.mp3).head? = some (some AFmt.mp3)
    ∧ formats_to_try ≠ specAttemptOrder AFmt.mp3 := by
  decide

/-- Attempts made by the fallback loop coincide with the failing front of the
format list followed by the first success, over any format list. -/
theorem loadAttempts_eq_aux (load : Option AFmt → Except String AudioSeg) :
    ∀ fl : List (Option AFmt),
      loadAttempts load fl =
        fl.takeWhile (fun f => !isOkB (load f))
          ++ ((firstLoad load fl).map Prod.snd).toList := by
  intro fl
  induction fl with
  | nil => simp [loadAttempts, firstLoad]
  | cons f rest ih =>
    cases hf : load f with
    | ok seg => simp [loadAttempts, firstLoad, hf, List.takeWhile_cons, isOkB]
    | error e => simp [loadAttempts, firstLoad, hf, List.takeWhile_cons, isOkB, ih]

/-- The attempted formats form a front segment of the format list. -/
theorem loadAttempts_front_aux (load : Option AFmt → Except String AudioSeg) :
    ∀ fl : List (Option AFmt), loadAttempts load fl <+: fl := by
  intro fl
  induction fl with
  | nil => exact ⟨[], rfl⟩
  | cons f rest ih =>
    cases hf : load f with
    | ok seg => exact ⟨rest, by simp [loadAttempts, hf]⟩
    | error e =>
      obtain ⟨t, ht⟩ := ih
      exact ⟨t, by simp [loadAttempts, hf, ht]⟩

/-- The winner reported by the loop really is a successful interpretation. -/
theorem firstLoad_sound_aux (load : Option AFmt → Except String AudioSeg) :
    ∀ fl : List (Option AFmt),
      match firstLoad load fl with
      | some r => load r.2 = Except.ok r.1
      | none => True := by
  intro fl
  induction fl with
  | nil => simp [firstLoad]
  | cons f rest ih =>
    cases hf : load f with
    | ok seg => simp [firstLoad, hf]
    | error e => simpa [firstLoad, hf] using ih

/-- C4 (amended): decoding attempts interpretations in the fixed priority
order — ffmpeg auto-detection first, then webm, ogg, mp3, m4a, wav, flac —
never consulting a client-declared hint (the conversion routine takes none);
every attempt before the winner failed, the winner's load succeeded, the loop
makes no attempt after the winner, and decoding succeeds exactly when some
interpretation loads. -/
theorem convert_format_order_spec (load : Option AFmt → Except String AudioSeg) :
    formats_to_try = [none, some AFmt.webm, some AFmt.ogg, some AFmt.mp3,
        some AFmt.m4a, some AFmt.wav, some AFmt.flac]
    ∧ loadAttempts load formats_to_try <+: formats_to_try
    ∧ loadAttempts load formats_to_try =
        formats_to_try.takeWhile (fun f => !isOkB (load f))
          ++ ((firstLoad load formats_to_try).map Prod.snd).toList
    ∧ (match firstLoad load formats_to_try with
       | some r => load r.2 = Except.ok r.1 ∧ convertLoadResult load = Except.ok r
       | none =>
           convertLoadResult load =
             Except.error
               "Unsupported audio format. Ensure ffmpeg is installed and audio is valid.") := by
  refine ⟨rfl, loadAttempts_front_aux load formats_to_try,
    loadAttempts_eq_aux load formats_to_try, ?_⟩
  have hs := firstLoad_sound_aux load formats_to_try
  cases hfl : firstLoad load formats_to_try with
  | some r =>
    rw [hfl] at hs
    exact ⟨hs, by simp [convertLoadResult, hfl]⟩
  | none => simp [convertLoadResult, hfl]

/-- C5 counterexample: when every interpretation fails, the loop records one
diagnostic reason per attempt, yet the raised error is a fixed message that
contains none of them, and is identical for entirely different failure
reasons — the diagnostic list is dropped from the returned error. -/
theorem convert_error_fixed_message_cex :
    loadErrors (fun _ => Except.error "reason-A") formats_to_try =
      ["auto: reason-A", "webm: reason-A", "ogg: reason-A", "mp3: reason-A",
       "m4a: reason-A", "wav: reason-A", "flac: reason-A"]
    ∧ convertLoadResult (fun _ => Except.error "reason-A") =
        Except.error "Unsupported audio format. Ensure ffmpeg is installed and audio is valid."
    ∧ strContainsSub
        "Unsupported audio format. Ensure ffmpeg is installed and audio is valid."
        "reason-A" = false
    ∧ convertLoadResult (fun _ => Except.error "reason-A") =
        convertLoadResult (fun _ => Except.error "reason-B") := by
  refine ⟨rfl, rfl, ?_, rfl⟩
  decide

/-- C5 (amended): whenever every interpretation fails — whatever the
per-attempt reasons were — decoding raises the same fixed unsupported-format
message; the per-attempt failure reasons are only logged, not carried in the
raised error. -/
theorem convert_error_message_spec (errs : Option AFmt → String) :
    convertLoadResult (fun f => Except.error (errs f)) =
      Except.error "Unsupported audio format. Ensure ffmpeg is installed and audio is valid." := rfl

/-! ## The recognition orchestrator (`recognize_sync`)

`recognize_sync` tries Google, then Vosk, then Sphinx.  Each engine call on
the fixed converted audio is abstracted by its outcome: for the
`speech_recognition` engines (Google, Sphinx) either a returned string, an
`UnknownValueError`, a `RequestError`, or another exception; for
`_try_vosk_recognition` either a returned string or a raised exception.  The
model additionally records the audit list `recognition_results` and the list
of engines actually invoked, in call order. -/

/-- The three recognition engines, in the source's call order. -/
inductive Backend where
  | google | vosk | sphinx
deriving DecidableEq

/-- Outcome of one call to a `speech_recognition` engine. -/
inductive SRResult where
  | success (text : String)
  | unknownValue
  | requestError (detail : String)
  | otherError (detail : String)

/-- Result of one orchestrator run: the returned transcript or raised error,
the `recognition_results` audit list, and the engines invoked in order. -/
structure RecognizeOutcome where
  result : Except String String
  attempts : List String
  calls : List Backend

/-- Python truthiness test `text and text.strip()` used on every engine
result before accepting it as a success. -/
def usable (t : String) : Bool := decide (t ≠ "") && decide (pyStrip t ≠ "")

/-- Step 4 of `recognize_sync`: every engine failed; join the audit list and
raise one of three messages depending on its contents. -/
def exhausted (attempts : List String) (calls : List Backend) : RecognizeOutcome :=
  let summary := String.intercalate " | " attempts
  if strContainsSub summary "Could not understand audio" then
    ⟨Except.error "Audio không thể nhận diện được. Hãy thử nói rõ hơn hoặc ghi âm lại.",
     attempts, calls⟩
  else if strContainsSub summary "Request error" then
    ⟨Except.error "Lỗi kết nối dịch vụ nhận diện giọng nói. Kiểm tra kết nối internet.",
     attempts, calls⟩
  else
    ⟨Except.error ("Tất cả dịch vụ nhận diện giọng nói đều thất bại: " ++ summary),
     attempts, calls⟩

/-- Step 3 of `recognize_sync`: Sphinx, only attempted for English; otherwise
an unavailability entry is appended without invoking the engine. -/
def afterVosk (language : String) (s : SRResult) (acc : List String) : RecognizeOutcome :=
  if strStartsWith language "en" then
    match s with
    | SRResult.success t =>
      if usable t then
        ⟨Except.ok (pyStrip t), acc, [Backend.google, Backend.vosk, Backend.sphinx]⟩
      else exhausted (acc ++ ["Sphinx: Empty transcript"])
        [Backend.google, Backend.vosk, Backend.sphinx]
    | SRResult.unknownValue =>
      exhausted (acc ++ ["Sphinx: Could not understand audio"])
        [Backend.google, Backend.vosk, Backend.sphinx]
    | SRResult.requestError e =>
      exhausted (acc ++ ["Sphinx: Request error - " ++ e])
        [Backend.google, Backend.vosk, Backend.sphinx]
    | SRResult.otherError e =>
      exhausted (acc ++ ["Sphinx: Unexpected error - " ++ e])
        [Backend.google, Backend.vosk, Backend.sphinx]
  else exhausted (acc ++ ["Sphinx: Not available for non-English"])
    [Backend.google, Backend.vosk]

/-- Step 2 of `recognize_sync`: Vosk.  A usable transcript is returned
stripped; an empty transcript or a raised exception appends an audit entry
(the exception text truncated to 100 characters) and falls through. -/
def afterGoogle (language : String) (v : Except String String) (s : SRResult)
    (acc : List String) : RecognizeOutcome :=
  match v with
  | Except.ok t =>
    if usable t then ⟨Except.ok (pyStrip t), acc, [Backend.google, Backend.vosk]⟩
    else afterVosk language s (acc ++ ["Vosk: Empty transcript"])
  | Except.error e => afterVosk language s (acc ++ ["Vosk: " ++ strTake e 100])

/-- `recognize_sync` as a function of the language and the three engine
outcomes.  A usable Google transcript is returned stripped at once; a Google
exception appends its audit entry; a Google success that is empty after
stripping appends nothing and falls through to Vosk. -/
def recognizeSync (language : String) (g : SRResult) (v : Except String String)
    (s : SRResult) : RecognizeOutcome :=
  match g with
  | SRResult.success t =>
    if usable t then ⟨Except.ok (pyStrip t), [], [Backend.google]⟩
    else afterGoogle language v s []
  | SRResult.unknownValue =>
    afterGoogle language v s ["Google: Could not understand audio"]
  | SRResult.requestError e =>
    afterGoogle language v s ["Google: Request error - " ++ e]
  | SRResult.otherError e =>
    afterGoogle language v s ["Google: Unexpected error - " ++ e]

/-- Whether a `speech_recognition` engine outcome passes the usability test. -/
def srUsable : SRResult → Bool
  | SRResult.success t => usable t
  | _ => false

/-- The text of a `speech_recognition` engine outcome. -/
def srText : SRResult → String
  | SRResult.success t => t
  | _ => ""

/-- Whether a Vosk outcome passes the usability test. -/
def exUsable : Except String String → Bool
  | Except.ok t => usable t
  | Except.error _ => false

/-- The text of a Vosk outcome. -/
def exText : Except String String → String
  | Except.ok t => t
  | Except.error _ => ""

/-- The audit entry appended when the Google step fails, if any (a Google
success — even an empty one — appends nothing). -/
def googleFailEntry : SRResult → Option String
  | SRResult.success _ => none
  | SRResult.unknownValue => some "Google: Could not understand audio"
  | SRResult.requestError e => some ("Google: Request error - " ++ e)
  | SRResult.otherError e => some ("Google: Unexpected error - " ++ e)

/-- The audit entry appended when the Vosk step fails, if any. -/
def voskFailEntry : Except String String → Option String
  | Except.ok t => if usable t then none else some "Vosk: Empty transcript"
  | Except.error e => some ("Vosk: " ++ strTake e 100)

/-- The audit entry appended when the Sphinx step fails or is skipped, if
any. -/
def sphinxFailEntry (language : String) (s : SRResult) : Option String :=
  if strStartsWith language "en" then
    match s with
    | SRResult.success t =>
      if usable t then none else some "Sphinx: Empty transcript"
    | SRResult.unknownValue => some "Sphinx: Could not understand audio"
    | SRResult.requestError e => some ("Sphinx: Request error - " ++ e)
    | SRResult.otherError e => some ("Sphinx: Unexpected error - " ++ e)
  else some "Sphinx: Not available for non-English"

theorem exhausted_calls (a : List String) (c : List Backend) :
    (exhausted a c).calls = c := by
  unfold exhausted
  dsimp only
  split_ifs <;> rfl

theorem exhausted_attempts (a : List String) (c : List Backend) :
    (exhausted a c).attempts = a := by
  unfold exhausted
  dsimp only
  split_ifs <;> rfl

theorem exhausted_result_error (a : List String) (c : List Backend) :
    ∃ m, (exhausted a c).result = Except.error m := by
  unfold exhausted
  dsimp only
  split_ifs <;> exact ⟨_, rfl⟩

theorem exhausted_not_ok (a : List String) (c : List Backend) (t : String)
    (h : (exhausted a c).result = Except.ok t) : False := by
  obtain ⟨m, hm⟩ := exhausted_result_error a c
  rw [hm] at h
  exact Except.noConfusion h

theorem afterVosk_calls (language : String) (s : SRResult) (acc : List String) :
    (afterVosk language s acc).calls =
      if strStartsWith language "en" then
        [Backend.google, Backend.vosk, Backend.sphinx]
      else [Backend.google, Backend.vosk] := by
  unfold afterVosk
  split_ifs with hen
  · cases s with
    | success t =>
      dsimp only
      split_ifs with hu
      · rfl
      · exact exhausted_calls _ _
    | unknownValue => exact exhausted_calls _ _
    | requestError e => exact exhausted_calls _ _
    | otherError e => exact exhausted_calls _ _
  · exact exhausted_calls _ _

theorem afterVosk_result_ok (language : String) (s : SRResult) (acc : List String)
    (t : String) (h : (afterVosk language s acc).result = Except.ok t) :
    ∃ raw, usable raw = true ∧ t = pyStrip raw := by
  unfold afterVosk at h
  split_ifs at h with hen
  · cases s with
    | success ts =>
      dsimp only at h
      split_ifs at h with hu
      · exact ⟨ts, hu, (Except.ok.inj h).symm⟩
      · exact absurd h (fun hx => exhausted_not_ok _ _ _ hx)
    | unknownValue => exact absurd h (fun hx => exhausted_not_ok _ _ _ hx)
    | requestError e => exact absurd h (fun hx => exhausted_not_ok _ _ _ hx)
    | otherError e => exact absurd h (fun hx => exhausted_not_ok _ _ _ hx)
  · exact absurd h (fun hx => exhausted_not_ok _ _ _ hx)

theorem afterVosk_sphinx_short (language : String) (s : SRResult) (acc : List String)
    (hen : strStartsWith language "en" = true) (hs : srUsable s = true) :
    (afterVosk language s acc).result = Except.ok (pyStrip (srText s))
    ∧ (afterVosk language s acc).calls =
        [Backend.google, Backend.vosk, Backend.sphinx] := by
  cases s with
  | success ts =>
    have hu : usable ts = true := by simpa [srUsable] using hs
    unfold afterVosk
    simp [hen, hu, srText]
  | unknownValue => simp [srUsable] at hs
  | requestError e => simp [srUsable] at hs
  | otherError e => simp [srUsable] at hs

theorem afterGoogle_result_ok (language : String) (v : Except String String)
    (s : SRResult) (acc : List String) (t : String)
    (h : (afterGoogle language v s acc).result = Except.ok t) :
    ∃ raw, usable raw = true ∧ t = pyStrip raw := by
  unfold afterGoogle at h
  cases v with
  | ok tv =>
    dsimp only at h
    split_ifs at h with hu
    · exact ⟨tv, hu, (Except.ok.inj h).symm⟩
    · exact afterVosk_result_ok _ _ _ _ h
  | error e => exact afterVosk_result_ok _ _ _ _ h

theorem afterGoogle_vosk_mem (language : String) (v : Except String String)
    (s : SRResult) (acc : List String) :
    Backend.vosk ∈ (afterGoogle language v s acc).calls := by
  unfold afterGoogle
  cases v with
  | ok tv =>
    dsimp only
    split_ifs with hu
    · simp
    · rw [afterVosk_calls]
      split_ifs <;> simp
  | error e =>
    rw [afterVosk_calls]
    split_ifs <;> simp

theorem afterGoogle_vosk_short (language : String) (v : Except String String)
    (s : SRResult) (acc : List String) (hv : exUsable v = true) :
    (afterGoogle language v s acc).result = Except.ok (pyStrip (exText v))
    ∧ (afterGoogle language v s acc).calls = [Backend.google, Backend.vosk] := by
  cases v with
  | ok tv =>
    have hu : usable tv = true := by simpa [exUsable] using hv
    unfold afterGoogle
    simp [hu, exText]
  | error e => simp [exUsable] at hv

theorem afterGoogle_vosk_fail (language : String) (v : Except String String)
    (s : SRResult) (acc : List String) (hv : exUsable v = false) :
    ∃ acc2, afterGoogle language v s acc = afterVosk language s acc2 := by
  cases v with
  | ok tv =>
    have hu : usable tv = false := by simpa [exUsable] using hv
    exact ⟨acc ++ ["Vosk: Empty transcript"], by unfold afterGoogle; simp [hu]⟩
  | error e => exact ⟨acc ++ ["Vosk: " ++ strTake e 100], rfl⟩

theorem recognize_google_fail (language : String) (g : SRResult)
    (v : Except String String) (s : SRResult) (hg : srUsable g = false) :
    ∃ acc, recognizeSync language g v s = afterGoogle language v s acc := by
  cases g with
  | success tg =>
    have hu : usable tg = false := by simpa [srUsable] using hg
    exact ⟨[], by unfold recognizeSync; simp [hu]⟩
  | unknownValue => exact ⟨["Google: Could not understand audio"], rfl⟩
  | requestError e => exact ⟨["Google: Request error - " ++ e], rfl⟩
  | otherError e => exact ⟨["Google: Unexpected error - " ++ e], rfl⟩

theorem recognize_calls_cases (language : String) (g : SRResult)
    (v : Except String String) (s : SRResult) :
    (recognizeSync language g v s).calls = [Backend.google]
    ∨ (recognizeSync language g v s).calls = [Backend.google, Backend.vosk]
    ∨ (recognizeSync language g v s).calls =
        [Backend.google, Backend.vosk, Backend.sphinx] := by
  have hAG : ∀ acc : List String,
      (afterGoogle language v s acc).calls = [Backend.google, Backend.vosk]
      ∨ (afterGoogle language v s acc).calls =
          [Backend.google, Backend.vosk, Backend.sphinx] := by
    intro acc
    unfold afterGoogle
    cases v with
    | ok tv =>
      dsimp only
      split_ifs with hu
      · exact Or.inl rfl
      · rw [afterVosk_calls]
        split_ifs
        · exact Or.inr rfl
        · exact Or.inl rfl
    | error e =>
      rw [afterVosk_calls]
      split_ifs
      · exact Or.inr rfl
      · exact Or.inl rfl
  by_cases hg : srUsable g = true
  · cases g with
    | success tg =>
      have hu : usable tg = true := by simpa [srUsable] using hg
      unfold recognizeSync
      simp [hu]
    | unknownValue => simp [srUsable] at hg
    | requestError e => simp [srUsable] at hg
    | otherError e => simp [srUsable] at hg
  · obtain ⟨acc, hacc⟩ :=
      recognize_google_fail language g v s (by simpa using hg)
    rw [hacc]
    rcases hAG acc with h | h
    · exact Or.inr (Or.inl h)
    · exact Or.inr (Or.inr h)

/-- C2: the engines are invoked in the order Google, Vosk, Sphinx (the call
list is always a front segment of that order), and the first engine whose
transcript is non-empty after stripping has that stripped transcript returned
at once, with no later engine invoked. -/
theorem recognize_order_short_circuit (language : String) (g : SRResult)
    (v : Except String String) (s : SRResult) :
    (recognizeSync language g v s).calls <+:
        [Backend.google, Backend.vosk, Backend.sphinx]
    ∧ (srUsable g = true →
        (recognizeSync language g v s).result = Except.ok (pyStrip (srText g))
        ∧ (recognizeSync language g v s).calls = [Backend.google])
    ∧ (srUsable g = false → exUsable v = true →
        (recognizeSync language g v s).result = Except.ok (pyStrip (exText v))
        ∧ (recognizeSync language g v s).calls = [Backend.google, Backend.vosk])
    ∧ (srUsable g = false → exUsable v = false →
        strStartsWith language "en" = true → srUsable s = true →
        (recognizeSync language g v s).result = Except.ok (pyStrip (srText s))
        ∧ (recognizeSync language g v s).calls =
            [Backend.google, Backend.vosk, Backend.sphinx]) := by
  refine ⟨?_, ?_, ?_, ?_⟩
  · rcases recognize_calls_cases language g v s with h | h | h
    · exact h ▸ ⟨[Backend.vosk, Backend.sphinx], rfl⟩
    · exact h ▸ ⟨[Backend.sphinx], rfl⟩
    · exact h ▸ ⟨[], List.append_nil _⟩
  · intro hg
    cases g with
    | success tg =>
      have hu : usable tg = true := by simpa [srUsable] using hg
      unfold recognizeSync
      simp [hu, srText]
    | unknownValue => simp [srUsable] at hg
    | requestError e => simp [srUsable] at hg
    | otherError e => simp [srUsable] at hg
  · intro hg hv
    obtain ⟨acc, hacc⟩ := recognize_google_fail language g v s hg
    rw [hacc]
    exact afterGoogle_vosk_short language v s acc hv
  · intro hg hv hen hs
    obtain ⟨acc, hacc⟩ := recognize_google_fail language g v s hg
    obtain ⟨acc2, hacc2⟩ := afterGoogle_vosk_fail language v s acc hv
    rw [hacc, hacc2]
    exact afterVosk_sphinx_short language s acc2 hen hs

/-- C2 witness: a usable Google transcript is returned stripped, and only
Google is invoked. -/
theorem recognize_order_short_circuit_witness :
    srUsable (SRResult.success "hello") = true
    ∧ ((recognizeSync "vi-VN" (SRResult.success "hello") (Except.error "x")
          SRResult.unknownValue).result =
        Except.ok (pyStrip (srText (SRResult.success "hello")))
      ∧ (recognizeSync "vi-VN" (SRResult.success "hello") (Except.error "x")
          SRResult.unknownValue).calls = [Backend.google]) :=
  ⟨by decide,
   (recognize_order_short_circuit "vi-VN" (SRResult.success "hello")
      (Except.error "x") SRResult.unknownValue).2.1 (by decide)⟩

theorem afterVosk_fail (language : String) (s : SRResult) (acc : List String)
    (sE : String) (hs : sphinxFailEntry language s = some sE) :
    (afterVosk language s acc).attempts = acc ++ [sE]
    ∧ ∃ m, (afterVosk language s acc).result = Except.error m := by
  unfold sphinxFailEntry at hs
  unfold afterVosk
  by_cases hen : strStartsWith language "en" = true
  · simp only [hen, if_true] at hs ⊢
    cases s with
    | success ts =>
      by_cases hu : usable ts = true
      · simp only [hu, if_true] at hs
        exact absurd hs (by simp)
      · simp only [hu, if_false] at hs ⊢
        have hsE : sE = "Sphinx: Empty transcript" := (Option.some.inj hs).symm
        subst hsE
        exact ⟨exhausted_attempts _ _, exhausted_result_error _ _⟩
    | unknownValue =>
      have hsE : sE = "Sphinx: Could not understand audio" := (Option.some.inj hs).symm
      subst hsE
      exact ⟨exhausted_attempts _ _, exhausted_result_error _ _⟩
    | requestError e =>
      have hsE : sE = "Sphinx: Request error - " ++ e := (Option.some.inj hs).symm
      subst hsE
      exact ⟨exhausted_attempts _ _, exhausted_result_error _ _⟩
    | otherError e =>
      have hsE : sE = "Sphinx: Unexpected error - " ++ e := (Option.some.inj hs).symm
      subst hsE
      exact ⟨exhausted_attempts _ _, exhausted_result_error _ _⟩
  · simp only [hen, if_false] at hs ⊢
    have hsE : sE = "Sphinx: Not available for non-English" := (Option.some.inj hs).symm
    subst hsE
    exact ⟨exhausted_attempts _ _, exhausted_result_error _ _⟩

theorem afterGoogle_fail (language : String) (v : Except String String)
    (s : SRResult) (acc : List String) (vE sE : String)
    (hv : voskFailEntry v = some vE) (hs : sphinxFailEntry language s = some sE) :
    (afterGoogle language v s acc).attempts = acc ++ [vE, sE]
    ∧ ∃ m, (afterGoogle language v s acc).result = Except.error m := by
  cases v with
  | ok tv =>
    unfold voskFailEntry at hv
    dsimp only at hv
    by_cases hu : usable tv = true
    · simp only [hu, if_true] at hv
      exact absurd hv (by simp)
    · simp only [hu, if_false] at hv
      have hvE : vE = "Vosk: Empty transcript" := (Option.some.inj hv).symm
      subst hvE
      unfold afterGoogle
      dsimp only
      rw [if_neg hu]
      obtain ⟨h1, h2⟩ :=
        afterVosk_fail language s (acc ++ ["Vosk: Empty transcript"]) sE hs
      exact ⟨by rw [h1]; simp, h2⟩
  | error e =>
    have hvE : vE = "Vosk: " ++ strTake e 100 := (Option.some.inj hv).symm
    subst hvE
    unfold afterGoogle
    obtain ⟨h1, h2⟩ :=
      afterVosk_fail language s (acc ++ ["Vosk: " ++ strTake e 100]) sE hs
    exact ⟨by rw [h1]; simp, h2⟩

/-- C3 counterexample: a Google attempt that returns an empty transcript
without raising appends no audit entry, so when every backend then fails the
trail has only two entries (Vosk and Sphinx) — not one entry per backend. -/
theorem recognize_trail_missing_google_cex :
    (recognizeSync "en-US" (SRResult.success "") (Except.error "boom")
        SRResult.unknownValue).attempts =
      ["Vosk: boom", "Sphinx: Could not understand audio"]
    ∧ (recognizeSync "en-US" (SRResult.success "") (Except.error "boom")
        SRResult.unknownValue).attempts.length ≠ 3
    ∧ (recognizeSync "en-US" (SRResult.success "") (Except.error "boom")
        SRResult.unknownValue).result =
      Except.error "Audio không thể nhận diện được. Hãy thử nói rõ hơn hoặc ghi âm lại." := by
  refine ⟨by decide, by decide, rfl⟩

/-- C3 (amended): when every backend fails, recognition terminates with an
error and the trail holds, in call order, exactly one entry per backend for
every backend that failed by raising, returned an empty Vosk/Sphinx
transcript, or was skipped as unavailable — except that a Google attempt
returning an empty transcript without raising leaves no Google entry. -/
theorem recognize_trail_per_backend (language : String) (g : SRResult)
    (v : Except String String) (s : SRResult) (gE vE sE : String)
    (hg : googleFailEntry g = some gE) (hv : voskFailEntry v = some vE)
    (hs : sphinxFailEntry language s = some sE) :
    (recognizeSync language g v s).attempts = [gE, vE, sE]
    ∧ ∃ m, (recognizeSync language g v s).result = Except.error m := by
  cases g with
  | success tg => exact absurd hg (by simp [googleFailEntry])
  | unknownValue =>
    have hgE : gE = "Google: Could not understand audio" := (Option.some.inj hg).symm
    subst hgE
    obtain ⟨h1, h2⟩ := afterGoogle_fail language v s
      ["Google: Could not understand audio"] vE sE hv hs
    exact ⟨by simpa [recognizeSync] using h1, h2⟩
  | requestError e =>
    have hgE : gE = "Google: Request error - " ++ e := (Option.some.inj hg).symm
    subst hgE
    obtain ⟨h1, h2⟩ := afterGoogle_fail language v s
      ["Google: Request error - " ++ e] vE sE hv hs
    exact ⟨by simpa [recognizeSync] using h1, h2⟩
  | otherError e =>
    have hgE : gE = "Google: Unexpected error - " ++ e := (Option.some.inj hg).symm
    subst hgE
    obtain ⟨h1, h2⟩ := afterGoogle_fail language v s
      ["Google: Unexpected error - " ++ e] vE sE hv hs
    exact ⟨by simpa [recognizeSync] using h1, h2⟩

/-- C3 witness: with Google raising, Vosk raising, and Sphinx skipped for a
non-English language, the trail is exactly one entry per backend in order. -/
theorem recognize_trail_per_backend_witness :
    (recognizeSync "vi-VN" SRResult.unknownValue (Except.error "x")
        SRResult.unknownValue).attempts =
      ["Google: Could not understand audio", "Vosk: x",
       "Sphinx: Not available for non-English"]
    ∧ ∃ m, (recognizeSync "vi-VN" SRResult.unknownValue (Except.error "x")
        SRResult.unknownValue).result = Except.error m :=
  recognize_trail_per_backend "vi-VN" SRResult.unknownValue (Except.error "x")
    SRResult.unknownValue "Google: Could not understand audio" "Vosk: x"
    "Sphinx: Not available for non-English" (by decide) (by decide) (by decide)

theorem dropWhile_head_not (l : List Char) (c : Char) (rest : List Char)
    (h : l.dropWhile isSpace = c :: rest) : isSpace c = false := by
  induction l with
  | nil => simp [List.dropWhile] at h
  | cons a t ih =>
    rw [List.dropWhile_cons] at h
    by_cases hpa : isSpace a = true
    · rw [if_pos hpa] at h
      exact ih h
    · rw [if_neg hpa] at h
      obtain ⟨rfl, -⟩ := List.cons.inj h
      simpa using hpa

theorem stripChars_not_all_space (l : List Char) (h : stripChars l ≠ []) :
    (stripChars l).all isSpace = false := by
  unfold stripChars at *
  cases hmc : (l.dropWhile isSpace).reverse.dropWhile isSpace with
  | nil => exact absurd (by rw [hmc]; rfl) h
  | cons c rest =>
    have hc : isSpace c = false := dropWhile_head_not _ c rest hmc
    cases hall : ((c :: rest).reverse.all isSpace) with
    | false => rfl
    | true =>
      have := List.all_eq_true.mp hall c (by simp)
      rw [hc] at this
      exact Bool.noConfusion this

theorem usable_strip (raw : String) (h : usable raw = true) :
    pyStrip raw ≠ "" ∧ (pyStrip raw).data.all isSpace = false := by
  unfold usable at h
  rw [Bool.and_eq_true] at h
  have h2 : pyStrip raw ≠ "" := of_decide_eq_true h.2
  have h3 : stripChars raw.data ≠ [] := by
    intro hn
    exact h2 (by unfold pyStrip; rw [hn])
  exact ⟨h2, stripChars_not_all_space raw.data h3⟩

/-- C6: the orchestrator never returns an empty or whitespace-only transcript
as a success — every returned transcript is some engine's stripped, non-empty
text — and when Google's transcript is empty after stripping the orchestrator
advances to Vosk. -/
theorem recognize_no_empty_success (language : String) (g : SRResult)
    (v : Except String String) (s : SRResult) :
    (∀ t, (recognizeSync language g v s).result = Except.ok t →
        t ≠ "" ∧ t.data.all isSpace = false)
    ∧ (srUsable g = false →
        Backend.vosk ∈ (recognizeSync language g v s).calls) := by
  constructor
  · intro t ht
    have hraw : ∃ raw, usable raw = true ∧ t = pyStrip raw := by
      unfold recognizeSync at ht
      cases g with
      | success tg =>
        dsimp only at ht
        split_ifs at ht with hu
        · exact ⟨tg, hu, (Except.ok.inj ht).symm⟩
        · exact afterGoogle_result_ok _ _ _ _ _ ht
      | unknownValue => exact afterGoogle_result_ok _ _ _ _ _ ht
      | requestError e => exact afterGoogle_result_ok _ _ _ _ _ ht
      | otherError e => exact afterGoogle_result_ok _ _ _ _ _ ht
    obtain ⟨raw, hu, rfl⟩ := hraw
    exact usable_strip raw hu
  · intro hg
    obtain ⟨acc, hacc⟩ := recognize_google_fail language g v s hg
    rw [hacc]
    exact afterGoogle_vosk_mem language v s acc

/-- C6 witness: a concrete run returns the non-empty transcript of the first
usable engine, and a Google empty-success advances to Vosk. -/
theorem recognize_no_empty_success_witness :
    (recognizeSync "vi-VN" (SRResult.success "hi") (Except.error "x")
        SRResult.unknownValue).result = Except.ok "hi"
    ∧ ("hi" ≠ "" ∧ "hi".data.all isSpace = false)
    ∧ (srUsable (SRResult.success " ") = false
        ∧ Backend.vosk ∈ (recognizeSync "vi-VN" (SRResult.success " ")
            (Except.error "x") SRResult.unknownValue).calls) :=
  ⟨rfl,
   (recognize_no_empty_success "vi-VN" (SRResult.success "hi") (Except.error "x")
      SRResult.unknownValue).1 "hi" rfl,
   by decide,
   (recognize_no_empty_success "vi-VN" (SRResult.success " ") (Except.error "x")
      SRResult.unknownValue).2 (by decide)⟩

/-! ## `_try_vosk_recognition` result reconciliation

After the chunk loop, `_try_vosk_recognition` holds three lists:
`final_results`, `word_results` and `partial_results`.  Lines 472-490 compile
them into one string with the priority final over words over partial, taking
the longest partial (Python `max(..., key=len)`, which keeps the first
maximum) as last resort. -/

/-- Python `max(l, key=len)`: the first element of maximal length (the empty
string for an empty list, which the caller rules out). -/
def maxByLen : List String → String
  | [] => ""
  | x :: xs => xs.foldl (fun acc y => if acc.length < y.length then y else acc) x

theorem foldlMax_mem (xs : List String) : ∀ a : String,
    xs.foldl (fun acc y => if acc.length < y.length then y else acc) a ∈ a :: xs := by
  induction xs with
  | nil => intro a; simp
  | cons x t ih =>
    intro a
    rw [List.foldl_cons]
    rcases List.mem_cons.mp (ih (if a.length < x.length then x else a)) with h1 | h1
    · rw [h1]
      split_ifs
      · simp
      · simp
    · exact List.mem_cons_of_mem _ (List.mem_cons_of_mem _ h1)

theorem foldlMax_le (xs : List String) : ∀ a : String,
    a.length ≤ (xs.foldl (fun acc y => if acc.length < y.length then y else acc) a).length
    ∧ ∀ p ∈ xs,
        p.length ≤
          (xs.foldl (fun acc y => if acc.length < y.length then y else acc) a).length := by
  induction xs with
  | nil => intro a; simp
  | cons x t ih =>
    intro a
    rw [List.foldl_cons]
    obtain ⟨h1, h2⟩ := ih (if a.length < x.length then x else a)
    constructor
    · refine le_trans ?_ h1
      split_ifs with hx
      · exact le_of_lt hx
      · exact le_refl _
    · intro p hp
      rcases List.mem_cons.mp hp with rfl | hp2
      · refine le_trans ?_ h1
        split_ifs with hx
        · exact le_refl _
        · exact le_of_not_lt hx
      · exact h2 p hp2

theorem maxByLen_mem (l : List String) (h : l ≠ []) : maxByLen l ∈ l := by
  cases l with
  | nil => exact absurd rfl h
  | cons x xs => exact foldlMax_mem xs x

theorem maxByLen_ge (l : List String) : ∀ p ∈ l, p.length ≤ (maxByLen l).length := by
  cases l with
  | nil => simp
  | cons x xs =>
    intro p hp
    obtain ⟨h1, h2⟩ := foldlMax_le xs x
    rcases List.mem_cons.mp hp with rfl | hp2
    · exact h1
    · exact h2 p hp2

/-- The result compilation of `_try_vosk_recognition`: space-joined finals if
any, else space-joined word fragments if any, else the longest partial,
stripped; empty when all three lists are empty. -/
def compileVoskText (finals wordRs partials : List String) : String :=
  if !finals.isEmpty then pyStrip (String.intercalate " " finals)
  else if !wordRs.isEmpty then pyStrip (String.intercalate " " wordRs)
  else if !partials.isEmpty then pyStrip (maxByLen partials)
  else ""

/-- C7: when the Vosk stream ends, final segments take priority — their
space-joined concatenation is returned; with no finals the word fragments are
joined; with neither, the single longest partial (first of maximal length)
is used. -/
theorem vosk_reconcile_precedence (finals wordRs partials : List String) :
    (finals ≠ [] →
      compileVoskText finals wordRs partials = pyStrip (String.intercalate " " finals))
    ∧ (finals = [] → wordRs ≠ [] →
      compileVoskText finals wordRs partials = pyStrip (String.intercalate " " wordRs))
    ∧ (finals = [] → wordRs = [] → partials ≠ [] →
      compileVoskText finals wordRs partials = pyStrip (maxByLen partials)
      ∧ maxByLen partials ∈ partials
      ∧ ∀ p ∈ partials, p.length ≤ (maxByLen partials).length) := by
  refine ⟨?_, ?_, ?_⟩
  · intro hf
    cases finals with
    | nil => exact absurd rfl hf
    | cons a l => simp [compileVoskText]
  · intro hf hw
    subst hf
    cases wordRs with
    | nil => exact absurd rfl hw
    | cons a l => simp [compileVoskText]
  · intro hf hw hp
    subst hf
    subst hw
    refine ⟨?_, maxByLen_mem partials hp, maxByLen_ge partials⟩
    cases partials with
    | nil => exact absurd rfl hp
    | cons a l => simp [compileVoskText]

/-- C7 witness: with no finals and no word fragments, the longest partial is
returned stripped. -/
theorem vosk_reconcile_precedence_witness :
    compileVoskText [] [] ["a", "bc"] = pyStrip (maxByLen ["a", "bc"])
    ∧ maxByLen ["a", "bc"] ∈ ["a", "bc"]
    ∧ ∀ p ∈ ["a", "bc"], p.length ≤ (maxByLen ["a", "bc"]).length :=
  (vosk_reconcile_precedence [] [] ["a", "bc"]).2.2 rfl rfl (by decide)

/-! ## `_clean_transcript`

The sanitizer strips the text, collapses whitespace runs into single spaces,
then walks the Vietnamese correction table: for each entry whose key occurs
in the lowercased snapshot of the text it runs `re.sub` with `IGNORECASE`,
substituting the table's replacement text verbatim for every match. -/

/-- Whitespace-run collapse, modelling the substitution of any maximal
whitespace run by a single space. -/
def collapseWs : List Char → List Char
  | [] => []
  | [c] => if isSpace c then [' '] else [c]
  | c :: d :: rest =>
    if isSpace c && isSpace d then collapseWs (d :: rest)
    else (if isSpace c then ' ' else c) :: collapseWs (d :: rest)

/-- Python `str.lower` on one character, modelled on ASCII (the table's
cased characters that the code can case-map are ASCII). -/
def lowerCh (c : Char) : Char := c.toLower

/-- Python `str.lower` on a character list. -/
def lowerStr (l : List Char) : List Char := l.map lowerCh

/-- Case-insensitive literal match at the head of `s`. -/
def matchesAtHead (pat s : List Char) : Bool :=
  (lowerStr pat).isPrefixOf (lowerStr s)

/-- Fuel-driven core of `re.sub(escaped-literal, repl, s, IGNORECASE)`:
scan left to right, replacing each non-overlapping case-insensitive
occurrence of the pattern `p :: pat` by `repl`.  The fuel starts at the text
length and bounds the scan (each step consumes at least one character). -/
def replaceCIFuel (p : Char) (pat repl : List Char) : Nat → List Char → List Char
  | _, [] => []
  | 0, l => l
  | Nat.succ fuel, c :: rest =>
    if matchesAtHead (p :: pat) (c :: rest) then
      repl ++ replaceCIFuel p pat repl fuel (rest.drop pat.length)
    else c :: replaceCIFuel p pat repl fuel rest

/-- `re.sub` with `IGNORECASE` over a literal pattern (the correction keys
are never empty, so the empty-pattern case just returns the text). -/
def replaceCI (pat repl l : List Char) : List Char :=
  match pat with
  | [] => l
  | p :: ps => replaceCIFuel p ps repl l.length l

/-- The `vietnamese_corrections` table, in source (insertion) order; note
every key maps to itself. -/
def vietnamese_corrections : List (String × String) :=
  [("chào bạn", "chào bạn"), ("xin chào", "xin chào"), ("cảm ơn", "cảm ơn"),
   ("tạm biệt", "tạm biệt"), ("làm ơn", "làm ơn"), ("xin lỗi", "xin lỗi")]

/-- The correction loop: `text_lower` is the snapshot taken once before the
loop; each key found in the snapshot triggers an `IGNORECASE` substitution on
the current text. -/
def applyCorrections (snapshot : List Char) : List Char → List (String × String) → List Char
  | t, [] => t
  | t, (wrong, correct) :: rest =>
    applyCorrections snapshot
      (if listContainsSub wrong.data snapshot then replaceCI wrong.data correct.data t
       else t)
      rest

/-- Model of `VoiceService._clean_transcript`. -/
def clean_transcript (text : String) : String :=
  if text = "" then ""
  else
    let t2 := collapseWs (stripChars text.data)
    String.mk (applyCorrections (lowerStr t2) t2 vietnamese_corrections)

/-- C8 (code bug): the correction table is applied case-insensitively, but
`re.sub` substitutes the table's lowercase replacement text for the matched
span, so the original casing of the matched span is NOT preserved — contrary
to the code's own comment stating the original case pattern is preserved:
the input with matched span cased as in the source text comes back
lowercased. -/
theorem clean_transcript_case_bug :
    clean_transcript "Xin Chào" = "xin chào"
    ∧ clean_transcript "Xin Chào" ≠ "Xin Chào" := by
  refine ⟨rfl, by decide⟩

/-! ## `text_to_speech` rate handling and `transcribe_audio` result assembly -/

/-- Python `int()` on a rational: truncation toward zero. -/
def ratTrunc (q : ℚ) : Int := if q < 0 then -⌊-q⌋ else ⌊q⌋

/-- The rate computation of `generate_speech` inside `text_to_speech`:
`new_rate = int(base_rate * speed)` clamped by `max(50, min(300, new_rate))`.
The `pitch` argument of `text_to_speech` is accepted but never read. -/
def tts_rate (speed pitch : ℚ) : Int :=
  let base : ℚ := 150
  let newRate := ratTrunc (base * speed)
  max 50 (min 300 newRate)

/-- C9 counterexample: doubling or halving the requested pitch leaves the
engine rate unchanged — the pitch parameter is not applied at all. -/
theorem tts_rate_pitch_ignored_cex :
    tts_rate 1 2 = 150 ∧ tts_rate 1 (1 / 2) = 150
    ∧ tts_rate 1 2 = tts_rate 1 (1 / 2) := by
  refine ⟨?_, ?_, ?_⟩ <;> norm_num [tts_rate, ratTrunc]

/-- C9 (amended): the engine rate scales the base rate 150 by the requested
speed only and is always clamped into [50, 300] before being handed to the
engine; the requested pitch has no effect on the rate. -/
theorem tts_rate_clamp_spec (speed pitch : ℚ) :
    50 ≤ tts_rate speed pitch ∧ tts_rate speed pitch ≤ 300
    ∧ tts_rate speed pitch = tts_rate speed 1 := by
  unfold tts_rate
  exact ⟨le_max_left _ _, max_le (by norm_num) (min_le_left _ _), rfl⟩

/-- Accumulator-based model of Python `str.split()` (split on whitespace
runs, dropping empty fields). -/
def splitWsAux : List Char → List Char → List (List Char)
  | [], acc => if acc.isEmpty then [] else [acc.reverse]
  | c :: rest, acc =>
    if isSpace c then
      if acc.isEmpty then splitWsAux rest [] else acc.reverse :: splitWsAux rest []
    else splitWsAux rest (c :: acc)

/-- Python `str.split()` with no separator. -/
def pySplit (s : String) : List (List Char) := splitWsAux s.data []

/-- The transcription result dictionary built by `transcribe_audio`:
`duration_estimate` is `len(audio_data) / 16000` on success (the byte count
of the raw upload — the decoded audio's container, sample rate and duration
are never consulted) and `0` on failure.  Floats are modelled as rationals. -/
structure TranscriptResult where
  text : String
  language : String
  confidence : ℚ
  conversation_id : Option Int
  word_count : Nat
  duration_estimate : ℚ
  error : Option String

/-- Model of `transcribe_audio`'s result assembly, as a function of the raw
upload's byte count and the outcome of the convert-and-recognize pipeline. -/
def transcribe_result (audioLen : Nat) (language : String) (convId : Option Int)
    (recognized : Except String String) : TranscriptResult :=
  match recognized with
  | Except.ok raw =>
    let text := clean_transcript raw
    { text := text, language := language, confidence := 9 / 10,
      conversation_id := convId,
      word_count := if text ≠ "" then (pySplit text).length else 0,
      duration_estimate := (audioLen : ℚ) / 16000, error := none }
  | Except.error e =>
    { text := "", language := language, confidence := 0,
      conversation_id := convId, word_count := 0,
      duration_estimate := 0, error := some e }

/-- C10: for every successful transcription the `duration_estimate` field is
the raw byte count divided by 16000 — a formula depending only on the byte
count, never on the audio's container format, sample rate or decoded
duration — and for every failed transcription it is 0. -/
theorem transcribe_duration_estimate_spec (audioLen : Nat) (language : String)
    (convId : Option Int) (raw e : String) :
    (transcribe_result audioLen language convId (Except.ok raw)).duration_estimate =
      (audioLen : ℚ) / 16000
    ∧ (transcribe_result audioLen language convId (Except.ok raw)).error = none
    ∧ (transcribe_result audioLen language convId (Except.error e)).duration_estimate = 0
    ∧ (transcribe_result audioLen language convId (Except.error e)).error = some e :=
  ⟨rfl, rfl, rfl, rfl⟩
